import Mathlib

/-!
Shallow embedding of the drawluna multi-provider image-generation
orchestration core: the fail-over retry loop (`retryWithConfigs`), the
per-config transient retry with backoff (`withRetryDelay` / `shouldRetry`),
the model-capability cache (`getModels`), configuration selection
(`getConfigs`), the Doubao adapter's poll loop and request signing, and the
response-to-element converter (`createImageElements`).

Asynchronous operations are embedded as functions from the invocation index
to the invocation's outcome (`Except` for code that can throw); the mutable
cache and registry become explicit state passing.  Strings thrown by the
source are carried verbatim.
-/

namespace DrawLuna

/-- One recorded failure of the fail-over loop (`RetryResult.errors` entry).
`configIndex` is `Int` because the empty-list sentinel uses index `-1`. -/
structure RetryError where
  configIndex : Int
  error : String
  deriving Repr, DecidableEq

/-- Embedding of `RetryResult<T>` from `types.ts` / `utils.ts`. -/
structure RetryResult (T : Type) where
  success : Bool
  result : Option T
  errors : List RetryError
  usedConfigIndex : Option Nat
  deriving Repr, DecidableEq

/-- Embedding of `createRetryResult` from `utils.ts`. -/
def createRetryResult (T : Type) : RetryResult T :=
  { success := false, result := none, errors := [], usedConfigIndex := none }

/-- The `for` loop of `retryWithConfigs`: tries `op config i` for the
remaining configs starting at index `i`, accumulating recorded errors in
`acc`.  The second component of the value is the list of indices at which
`op` was actually invoked, in order (instrumentation used to reason about
which configs were attempted). -/
def retryGo {T C : Type} (op : C → Nat → Except String T) :
    List C → Nat → List RetryError → RetryResult T × List Nat
  | [], _, acc =>
    ({ success := false, result := none, errors := acc, usedConfigIndex := none }, [])
  | c :: rest, i, acc =>
    match op c i with
    | Except.ok v =>
      ({ success := true, result := some v, errors := acc, usedConfigIndex := some i }, [i])
    | Except.error e =>
      let next := retryGo op rest (i + 1) (acc ++ [⟨(i : Int), e⟩])
      (next.1, i :: next.2)

/-- Embedding of `retryWithConfigs` from `utils.ts`.  `op config i` is the
outcome of `operation(config, i)` (`Except.error` = the operation threw,
with the stringified message).  Also returns the list of indices attempted. -/
def retryWithConfigs {T C : Type} (configs : List C)
    (op : C → Nat → Except String T) : RetryResult T × List Nat :=
  if configs.length = 0 then
    ({ success := false, result := none,
       errors := [⟨(-1 : Int), "没有可用的配置"⟩], usedConfigIndex := none }, [])
  else
    retryGo op configs 0 []

/-- `retryGo` when the first `n` remaining configs fail and the `n`-th
succeeds: generalisation of the C1 property to an arbitrary start index. -/
theorem retryGo_fail_then_ok {T C : Type} (op : C → Nat → Except String T)
    (errMsg : Nat → String) (v : T) :
    ∀ (n : Nat) (configs : List C) (k : Nat) (acc : List RetryError)
      (hn : n < configs.length),
      (∀ i (hi : i < n), op (configs.get ⟨i, hi.trans hn⟩) (k + i) =
        Except.error (errMsg (k + i))) →
      op (configs.get ⟨n, hn⟩) (k + n) = Except.ok v →
      retryGo op configs k acc =
        ({ success := true, result := some v,
           errors := acc ++ (List.range' k n).map (fun (j : Nat) => ⟨(j : Int), errMsg j⟩),
           usedConfigIndex := some (k + n) },
         List.range' k (n + 1)) := by
  intro n
  induction n with
  | zero =>
    intro configs k acc hn _ hok
    match configs, hn with
    | c :: rest, _ =>
      simp only [List.get] at hok
      rw [Nat.add_zero] at hok
      simp [retryGo, hok, List.range'_succ]
  | succ m ih =>
    intro configs k acc hn hfail hok
    match configs, hn with
    | c :: rest, hn =>
      have h0 := hfail 0 (Nat.succ_pos m)
      simp only [List.get] at h0
      rw [Nat.add_zero] at h0
      have hn' : m < rest.length := Nat.lt_of_succ_lt_succ hn
      have hfail' : ∀ i (hi : i < m), op (rest.get ⟨i, hi.trans hn'⟩) ((k + 1) + i) =
          Except.error (errMsg ((k + 1) + i)) := by
        intro i hi
        have h := hfail (i + 1) (Nat.succ_lt_succ hi)
        simp only [List.get] at h
        rw [show k + (i + 1) = k + 1 + i from by omega] at h
        exact h
      have hok' : op (rest.get ⟨m, hn'⟩) ((k + 1) + m) = Except.ok v := by
        have h := hok
        simp only [List.get] at h
        rw [show k + (m + 1) = k + 1 + m from by omega] at h
        exact h
      have hrec := ih rest (k + 1) (acc ++ [⟨(k : Int), errMsg k⟩]) hn' hfail' hok'
      simp only [retryGo, h0, hrec]
      rw [List.range'_succ k (m + 1) 1, List.range'_succ k m 1,
        List.range'_succ (k + 1) m 1]
      simp only [List.map_cons, Prod.mk.injEq, RetryResult.mk.injEq, List.append_assoc,
        List.singleton_append, Option.some.injEq]
      refine ⟨⟨?_, ?_, ?_, ?_⟩, ?_⟩ <;> first | trivial | omega

/-- C1: if the operation fails for the configs at positions `0..n-1` and
succeeds at position `n`, `retryWithConfigs` returns `success = true`, the
operation's value as `result`, `usedConfigIndex = n`, and exactly `n`
recorded errors in attempt order with `configIndex` `0..n-1` and the
stringified messages; the attempted indices are exactly `0..n`, so no config
after position `n` is attempted. -/
theorem retryWithConfigs_first_success {T C : Type} (configs : List C)
    (op : C → Nat → Except String T) (errMsg : Nat → String) (v : T)
    (n : Nat) (hn : n < configs.length)
    (hfail : ∀ i (hi : i < n), op (configs.get ⟨i, hi.trans hn⟩) i =
      Except.error (errMsg i))
    (hok : op (configs.get ⟨n, hn⟩) n = Except.ok v) :
    retryWithConfigs configs op =
      ({ success := true, result := some v,
         errors := (List.range n).map (fun (i : Nat) => ⟨(i : Int), errMsg i⟩),
         usedConfigIndex := some n },
       List.range (n + 1)) := by
  have hne : configs.length ≠ 0 := by omega
  rw [retryWithConfigs, if_neg hne]
  have hfail' : ∀ i (hi : i < n), op (configs.get ⟨i, hi.trans hn⟩) (0 + i) =
      Except.error (errMsg (0 + i)) := by
    intro i hi
    simpa using hfail i hi
  have hok' : op (configs.get ⟨n, hn⟩) (0 + n) = Except.ok v := by simpa using hok
  have h := retryGo_fail_then_ok op errMsg v n configs 0 [] hn hfail' hok'
  rw [h, List.range_eq_range' n, List.range_eq_range' (n + 1)]
  simp

/-- Witness for C1 at a concrete input: three configs, failure at index 0,
success at index 1. -/
theorem retryWithConfigs_first_success_witness :
    retryWithConfigs [10, 20, 30]
        (fun c i => if i = 0 then Except.error ("err" ++ toString i) else Except.ok (c + i)) =
      ({ success := true, result := some 21,
         errors := [⟨(0 : Int), "err0"⟩],
         usedConfigIndex := some 1 },
       [0, 1]) := by
  have h := retryWithConfigs_first_success (T := Nat) (C := Nat) [10, 20, 30]
    (fun c i => if i = 0 then Except.error ("err" ++ toString i) else Except.ok (c + i))
    (fun i => "err" ++ toString i) 21 1 (by decide)
    (fun i hi => by
      match i, hi with
      | 0, _ => rfl)
    (by rfl)
  rw [h]
  rfl

/-- C9: on the empty config list, `retryWithConfigs` fails with exactly one
error entry at `configIndex = -1` and attempts no config. -/
theorem retryWithConfigs_empty {T C : Type} (op : C → Nat → Except String T) :
    retryWithConfigs ([] : List C) op =
      ({ success := false, result := none,
         errors := [⟨(-1 : Int), "没有可用的配置"⟩], usedConfigIndex := none }, []) := by
  rfl

/-- Witness for C9 at concrete types. -/
theorem retryWithConfigs_empty_witness :
    retryWithConfigs ([] : List Nat) (fun c i => Except.ok (c + i)) =
      ({ success := false, result := none,
         errors := [⟨(-1 : Int), "没有可用的配置"⟩], usedConfigIndex := none }, []) :=
  retryWithConfigs_empty (fun c i => Except.ok (c + i))

/-- An error value as thrown by a provider call, as inspected by
`isHttpError` / `shouldRetry` in `utils.ts`: the message plus the optional
`error.response.status` and `error.status` numeric fields. -/
structure HttpErr where
  message : String
  responseStatus : Option Nat
  status : Option Nat
  deriving Repr, DecidableEq

/-- JS truthiness of an optional numeric field: `undefined` and `0` are
falsy. -/
def jsTruthyNat : Option Nat → Bool
  | none => false
  | some s => s != 0

/-- The JS expression `error?.response?.status || error?.status`, evaluated
with JS `||` semantics (`0` and `undefined` are falsy). -/
def effectiveStatus (e : HttpErr) : Option Nat :=
  if jsTruthyNat e.responseStatus then e.responseStatus
  else if jsTruthyNat e.status then e.status
  else none

/-- Embedding of `isHttpError` from `utils.ts`:
`!!(error?.response?.status || error?.status)`. -/
def isHttpError (e : HttpErr) : Bool :=
  (effectiveStatus e).isSome

/-- The `noRetryStatuses` list of `shouldRetry` in `utils.ts`. -/
def noRetryStatuses : List Nat := [400, 401, 403, 404, 422]

/-- Embedding of `shouldRetry` from `utils.ts`. -/
def shouldRetry (e : HttpErr) : Bool :=
  if isHttpError e = false then true
  else
    match effectiveStatus e with
    | none => true
    | some s => !(decide (s ∈ noRetryStatuses))

/-- `shouldRetry` answers true exactly when the effective HTTP status is
absent or outside `noRetryStatuses`. -/
theorem shouldRetry_true_iff (e : HttpErr) :
    shouldRetry e = true ↔ ∀ s, effectiveStatus e = some s → s ∉ noRetryStatuses := by
  unfold shouldRetry isHttpError
  cases h : effectiveStatus e with
  | none => simp [h]
  | some s => simp [h]

/-- The retry loop of `withRetryDelay` (`utils.ts`), from attempt `i`.
`op j` is the outcome of the `j`-th invocation of `operation`.  Returns the
final outcome (`Except.error` = the re-raised last error), the total number
of invocations made from attempt 0 up to termination, and the list of
backoff delays slept, in order.  The source breaks the loop when
`i === maxRetries || !shouldRetry(error)`; since the loop counts `i` up from
0, `i ≠ maxRetries` is `i < maxRetries` here. -/
def withRetryDelayGo {T : Type} (op : Nat → Except HttpErr T)
    (maxRetries baseDelay : Nat) (i : Nat) :
    Except HttpErr T × Nat × List Nat :=
  match op i with
  | Except.ok v => (Except.ok v, i + 1, [])
  | Except.error e =>
    if h : i < maxRetries ∧ shouldRetry e = true then
      ((withRetryDelayGo op maxRetries baseDelay (i + 1)).1,
       (withRetryDelayGo op maxRetries baseDelay (i + 1)).2.1,
       baseDelay * 2 ^ i :: (withRetryDelayGo op maxRetries baseDelay (i + 1)).2.2)
    else
      (Except.error e, i + 1, [])
  termination_by maxRetries - i
  decreasing_by omega

/-- Embedding of `withRetryDelay` from `utils.ts` (the source defaults are
`maxRetries = 3`, `baseDelay = 1000`), instrumented with the invocation
count and the observed delays. -/
def withRetryDelay {T : Type} (op : Nat → Except HttpErr T)
    (maxRetries baseDelay : Nat) : Except HttpErr T × Nat × List Nat :=
  withRetryDelayGo op maxRetries baseDelay 0

/-- If every invocation throws a retryable error, the loop from attempt `k`
performs attempts `k..maxRetries`, sleeps `baseDelay * 2 ^ i` after each
attempt `i < maxRetries`, and re-raises the last error. -/
theorem withRetryDelayGo_exhaust {T : Type} (op : Nat → Except HttpErr T)
    (errs : Nat → HttpErr) (maxRetries baseDelay : Nat)
    (hop : ∀ i, op i = Except.error (errs i))
    (hretry : ∀ i, shouldRetry (errs i) = true) :
    ∀ (d k : Nat), maxRetries - k = d → k ≤ maxRetries →
      withRetryDelayGo op maxRetries baseDelay k =
        (Except.error (errs maxRetries), maxRetries + 1,
         (List.range' k d).map (fun i => baseDelay * 2 ^ i)) := by
  intro d
  induction d with
  | zero =>
    intro k hd hk
    have hke : k = maxRetries := by omega
    subst hke
    rw [withRetryDelayGo, hop k]
    simp
  | succ n ih =>
    intro k hd hk
    have hlt : k < maxRetries := by omega
    have hrec := ih (k + 1) (by omega) (by omega)
    rw [withRetryDelayGo, hop k]
    simp [hrec, hretry k, hlt, List.range'_succ]

/-- If an invocation at attempt `i` throws a non-retryable error, the loop
stops there: that error is re-raised, `i + 1` invocations total, and no
delay is slept after it. -/
theorem withRetryDelayGo_stop {T : Type} (op : Nat → Except HttpErr T)
    (maxRetries baseDelay i : Nat) (e : HttpErr)
    (hop : op i = Except.error e) (hnr : shouldRetry e = false) :
    withRetryDelayGo op maxRetries baseDelay i = (Except.error e, i + 1, []) := by
  rw [withRetryDelayGo, hop]
  simp [hnr]

/-- C7: (first conjunct) if the operation always throws an error whose
effective HTTP status is absent or outside {400, 401, 403, 404, 422},
`withRetryDelay` invokes it exactly `maxRetries + 1` times, sleeps
`baseDelay * 2 ^ attempt` before each retry (`1000, 2000, 4000` for
`maxRetries = 3`, `baseDelay = 1000`), and re-raises the last error;
(second conjunct) an error whose status is in that set is re-raised after a
single invocation with no delay. -/
theorem withRetryDelay_spec {T : Type} (op : Nat → Except HttpErr T)
    (errs : Nat → HttpErr) (maxRetries baseDelay : Nat) :
    ((∀ i, op i = Except.error (errs i)) →
     (∀ i s, effectiveStatus (errs i) = some s → s ∉ noRetryStatuses) →
      withRetryDelay op maxRetries baseDelay =
        (Except.error (errs maxRetries), maxRetries + 1,
         (List.range maxRetries).map (fun i => baseDelay * 2 ^ i)))
    ∧ (∀ e s, op 0 = Except.error e → effectiveStatus e = some s →
        s ∈ noRetryStatuses →
        withRetryDelay op maxRetries baseDelay = (Except.error e, 1, [])) := by
  constructor
  · intro hop hstat
    have hretry : ∀ i, shouldRetry (errs i) = true := by
      intro i
      exact (shouldRetry_true_iff (errs i)).mpr (hstat i)
    have h := withRetryDelayGo_exhaust op errs maxRetries baseDelay hop hretry
      maxRetries 0 (by omega) (by omega)
    rw [withRetryDelay, h, List.range_eq_range' maxRetries]
  · intro e s hop hstat hmem
    have hnr : shouldRetry e = false := by
      by_contra hc
      have ht : shouldRetry e = true := by
        cases hb : shouldRetry e
        · exact absurd hb hc
        · rfl
      exact (shouldRetry_true_iff e).mp ht s hstat hmem
    exact withRetryDelayGo_stop op maxRetries baseDelay 0 e hop hnr

/-- Witness for C7: a concrete operation that always throws without a
status exhausts all 4 attempts with delays 1000, 2000, 4000; a concrete 404
after the first invocation stops immediately. -/
theorem withRetryDelay_spec_witness :
    withRetryDelay (T := Nat) (fun i => Except.error ⟨"网络错误" ++ toString i, none, none⟩) 3 1000 =
      (Except.error ⟨"网络错误3", none, none⟩, 4, [1000, 2000, 4000]) ∧
    withRetryDelay (T := Nat) (fun _ => Except.error ⟨"not found", some 404, none⟩) 3 1000 =
      (Except.error ⟨"not found", some 404, none⟩, 1, []) := by
  constructor
  · have h := (withRetryDelay_spec (T := Nat)
      (fun i => Except.error ⟨"网络错误" ++ toString i, none, none⟩)
      (fun i => ⟨"网络错误" ++ toString i, none, none⟩) 3 1000).1
      (fun i => rfl) (fun i s hs => by simp [effectiveStatus, jsTruthyNat] at hs)
    rw [h]
    rfl
  · exact (withRetryDelay_spec (T := Nat)
      (fun _ => Except.error ⟨"not found", some 404, none⟩)
      (fun i => ⟨"not found", some 404, none⟩) 3 1000).2
      ⟨"not found", some 404, none⟩ 404 rfl rfl (by decide)

/-- Per-config attempt body of `DrawLunaService.generateImage`
(`index.ts`): the adapter call is wrapped in
`withRetryDelay(..., config.config.retryCount ?? 2)` with the default base
delay of 1000 ms.  `adapterOp j` is the outcome of the `j`-th invocation of
the adapter operation for this config. -/
def generatePerConfigAttempt {T : Type} (retryCount : Option Nat)
    (adapterOp : Nat → Except HttpErr T) : Except HttpErr T × Nat × List Nat :=
  withRetryDelay adapterOp (retryCount.getD 2) 1000

/-- Per-config attempt body of `DrawLunaService.editImage` (`index.ts`):
the adapter operation is called directly, with no `withRetryDelay` wrapper,
so one invocation and no backoff sleeps. -/
def editPerConfigAttempt {T : Type} (adapterOp : Nat → Except HttpErr T) :
    Except HttpErr T × Nat × List Nat :=
  (adapterOp 0, 1, [])

/-- Per-config attempt body of `DrawLunaService.createVariation`
(`index.ts`): like `editImage`, the adapter operation is called directly,
without `withRetryDelay`. -/
def variationPerConfigAttempt {T : Type} (adapterOp : Nat → Except HttpErr T) :
    Except HttpErr T × Nat × List Nat :=
  (adapterOp 0, 1, [])

/-- A concrete adapter operation that always throws a transient (statusless,
hence retryable) error. -/
def alwaysNetErr : Nat → Except HttpErr Nat :=
  fun _ => Except.error ⟨"网络错误", none, none⟩

/-- Counterexample to C2: with `retryCount = 2` and an adapter operation
that always throws a retryable error, the claim demands `retryCount + 1 = 3`
invocations per config for every image operation, but the per-config attempt
of `editImage` (and of `createVariation`) invokes the adapter exactly once
and sleeps no backoff delay. -/
theorem editPerConfigAttempt_cex :
    (editPerConfigAttempt alwaysNetErr).2.1 = 1 ∧
    (variationPerConfigAttempt alwaysNetErr).2.1 = 1 ∧
    ¬ ((editPerConfigAttempt alwaysNetErr).2.1 = (some 2 : Option Nat).getD 2 + 1) ∧
    (editPerConfigAttempt alwaysNetErr).2.2 = [] := by
  refine ⟨rfl, rfl, by decide, rfl⟩

/-- C2 (amended): only `generateImage` nests the backoff retry layer inside
each per-config attempt — with an always-retryable-failing adapter it makes
exactly `(retryCount ?? 2) + 1` invocations with exponential backoff delays
`1000 * 2 ^ i` — while `editImage` and `createVariation` invoke the adapter
exactly once per configuration, with no inner retry. -/
theorem perConfigAttempt_retry_spec {T : Type} (retryCount : Option Nat)
    (adapterOp : Nat → Except HttpErr T) (errs : Nat → HttpErr) :
    ((∀ i, adapterOp i = Except.error (errs i)) →
     (∀ i s, effectiveStatus (errs i) = some s → s ∉ noRetryStatuses) →
      generatePerConfigAttempt retryCount adapterOp =
        (Except.error (errs (retryCount.getD 2)), retryCount.getD 2 + 1,
         (List.range (retryCount.getD 2)).map (fun i => 1000 * 2 ^ i)))
    ∧ editPerConfigAttempt adapterOp = (adapterOp 0, 1, [])
    ∧ variationPerConfigAttempt adapterOp = (adapterOp 0, 1, []) := by
  refine ⟨?_, rfl, rfl⟩
  intro hop hstat
  have hretry : ∀ i, shouldRetry (errs i) = true := fun i =>
    (shouldRetry_true_iff (errs i)).mpr (hstat i)
  have h := withRetryDelayGo_exhaust adapterOp errs (retryCount.getD 2) 1000
    hop hretry (retryCount.getD 2) 0 (by omega) (by omega)
  rw [generatePerConfigAttempt, withRetryDelay, h,
    List.range_eq_range' (retryCount.getD 2)]

/-- Witness for the amended C2 at a concrete input: `retryCount = 2` gives
3 invocations for `generateImage` and 1 for `editImage`/`createVariation`. -/
theorem perConfigAttempt_retry_spec_witness :
    generatePerConfigAttempt (some 2) alwaysNetErr =
      (Except.error ⟨"网络错误", none, none⟩, 3, [1000, 2000]) ∧
    editPerConfigAttempt alwaysNetErr =
      (Except.error ⟨"网络错误", none, none⟩, 1, []) ∧
    variationPerConfigAttempt alwaysNetErr =
      (Except.error ⟨"网络错误", none, none⟩, 1, []) := by
  have h := perConfigAttempt_retry_spec (some 2) alwaysNetErr
    (fun _ => ⟨"网络错误", none, none⟩)
  refine ⟨?_, h.2.1, h.2.2⟩
  have hg := h.1 (fun i => rfl)
    (fun i s hs => by simp [effectiveStatus, jsTruthyNat] at hs)
  rw [hg]
  rfl

/-- The fields of `ImageConfig` that configuration selection inspects. -/
structure SvcConfig where
  index : Nat
  type : String
  deriving Repr, DecidableEq

/-- Embedding of `DrawLunaService.getAllConfigs` (`index.ts`): the configs
whose provider tag has a registered adapter. -/
def getAllConfigs (configs : List SvcConfig) (hasAdapter : String → Bool) :
    List SvcConfig :=
  configs.filter (fun c => hasAdapter c.type)

/-- One iteration of the compatibility loop in `getConfigs`: a config is
collected when `supportsModel` resolves to `true`; a `false` answer or a
thrown capability-check error (`Except.error`, caught and logged in the
source) skips the config. -/
def answersTrue (supports : SvcConfig → String → Except String Bool)
    (m : String) (c : SvcConfig) : Bool :=
  match supports c m with
  | Except.ok b => b
  | Except.error _ => false

/-- Embedding of `DrawLunaService.getConfigs` (`index.ts`); `supports c m`
is the outcome of `adapter.supportsModel(config, model)`. -/
def getConfigs (configs : List SvcConfig) (hasAdapter : String → Bool)
    (model : Option String) (fallbackToDefault : Bool)
    (supports : SvcConfig → String → Except String Bool) : List SvcConfig :=
  let allConfigs := getAllConfigs configs hasAdapter
  match model with
  | none => allConfigs
  | some m =>
    let compatibleConfigs := allConfigs.filter (answersTrue supports m)
    if compatibleConfigs.length > 0 then compatibleConfigs
    else if fallbackToDefault then allConfigs else []

/-- C6: when no eligible config's `supportsModel` answers true for the
requested model, `getConfigs` returns the full eligible list (in
configuration order) under `fallbackToDefault = true` and the empty list
under `fallbackToDefault = false`; when some configs answer true, exactly
those are returned (for either fallback setting). -/
theorem getConfigs_model_filter (configs : List SvcConfig)
    (hasAdapter : String → Bool) (m : String)
    (supports : SvcConfig → String → Except String Bool) :
    ((∀ c ∈ getAllConfigs configs hasAdapter, answersTrue supports m c = false) →
      getConfigs configs hasAdapter (some m) true supports =
        getAllConfigs configs hasAdapter ∧
      getConfigs configs hasAdapter (some m) false supports = [])
    ∧ ((∃ c ∈ getAllConfigs configs hasAdapter, answersTrue supports m c = true) →
      ∀ fb, getConfigs configs hasAdapter (some m) fb supports =
        (getAllConfigs configs hasAdapter).filter (answersTrue supports m)) := by
  constructor
  · intro hnone
    have hfe : (getAllConfigs configs hasAdapter).filter (answersTrue supports m) = [] := by
      rw [List.filter_eq_nil_iff]
      intro c hc
      simp [hnone c hc]
    constructor <;> simp [getConfigs, hfe]
  · intro hsome fb
    obtain ⟨c, hc, htrue⟩ := hsome
    have hmem : c ∈ (getAllConfigs configs hasAdapter).filter (answersTrue supports m) :=
      List.mem_filter.mpr ⟨hc, htrue⟩
    have hpos : 0 < ((getAllConfigs configs hasAdapter).filter (answersTrue supports m)).length :=
      List.length_pos.mpr (List.ne_nil_of_mem hmem)
    simp [getConfigs, hpos]

/-- Witness for C6 at a concrete input: two eligible configs, neither
supporting model "X" (one errors during the check), fall back or return
empty; model "Y" supported by config 1 only returns exactly config 1. -/
theorem getConfigs_model_filter_witness :
    getConfigs [⟨0, "openai"⟩, ⟨1, "doubao"⟩] (fun _ => true) (some "X") true
        (fun c mm => if mm = "Y" ∧ c.index = 1 then Except.ok true
          else if c.index = 0 then Except.error "网络错误" else Except.ok false) =
      [⟨0, "openai"⟩, ⟨1, "doubao"⟩] ∧
    getConfigs [⟨0, "openai"⟩, ⟨1, "doubao"⟩] (fun _ => true) (some "X") false
        (fun c mm => if mm = "Y" ∧ c.index = 1 then Except.ok true
          else if c.index = 0 then Except.error "网络错误" else Except.ok false) =
      [] ∧
    getConfigs [⟨0, "openai"⟩, ⟨1, "doubao"⟩] (fun _ => true) (some "Y") false
        (fun c mm => if mm = "Y" ∧ c.index = 1 then Except.ok true
          else if c.index = 0 then Except.error "网络错误" else Except.ok false) =
      [⟨1, "doubao"⟩] := by
  have h := getConfigs_model_filter [⟨0, "openai"⟩, ⟨1, "doubao"⟩] (fun _ => true) "X"
    (fun c mm => if mm = "Y" ∧ c.index = 1 then Except.ok true
      else if c.index = 0 then Except.error "网络错误" else Except.ok false)
  have h2 := getConfigs_model_filter [⟨0, "openai"⟩, ⟨1, "doubao"⟩] (fun _ => true) "Y"
    (fun c mm => if mm = "Y" ∧ c.index = 1 then Except.ok true
      else if c.index = 0 then Except.error "网络错误" else Except.ok false)
  have hno : ∀ c ∈ getAllConfigs [⟨0, "openai"⟩, ⟨1, "doubao"⟩] (fun _ => true),
      answersTrue (fun c mm => if mm = "Y" ∧ c.index = 1 then Except.ok true
        else if c.index = 0 then Except.error "网络错误" else Except.ok false) "X" c = false := by
    decide
  have hyes : ∃ c ∈ getAllConfigs [⟨0, "openai"⟩, ⟨1, "doubao"⟩] (fun _ => true),
      answersTrue (fun c mm => if mm = "Y" ∧ c.index = 1 then Except.ok true
        else if c.index = 0 then Except.error "网络错误" else Except.ok false) "Y" c = true :=
    ⟨⟨1, "doubao"⟩, by decide, by decide⟩
  refine ⟨((h.1 hno).1).trans (by decide), (h.1 hno).2, (h2.2 hyes false).trans (by decide)⟩

/-- A `modelCache` entry (`base.ts`): the model list and its timestamp. -/
structure CacheEntry where
  models : List String
  timestamp : Nat
  deriving Repr, DecidableEq

/-- `CACHE_DURATION` from `base.ts`: 5 minutes in milliseconds. -/
def CACHE_DURATION : Nat := 5 * 60 * 1000

/-- The mutable state read and written by `ImageAdapter.getModels`: the
per-adapter `modelCache` keyed by `type_index` strings, and the
process-wide per-type registry `ctx.drawluna._models` (initialised to the
empty object in `DrawLunaService`). -/
structure ModelState where
  cache : String → Option CacheEntry
  registry : String → Option (List String)

/-- The cache key built in `getModels`: `config.type`, an underscore, and
the decimal config index. -/
def cacheKey (cType : String) (index : Nat) : String :=
  cType ++ "_" ++ toString index

/-- `Array.from(new Set(l)).sort()`: de-duplicate, then sort
lexicographically. -/
def dedupSort (l : List String) : List String :=
  l.dedup.insertionSort (fun a b => a ≤ b)

/-- The `try`/`catch` body of `getModels` (`base.ts`) past the freshness
check.  On success (`raw = Except.ok ms`): the incoming list is merged into
the per-type registry only when the registry already has an entry for the
type (the source guards the union and the registry write with
`if (existingModels)`); the resulting list is stored in the cache under
`key` with the current timestamp and returned.  On failure the stale cached
entry (when one exists) or the static default list is returned and the
state is left untouched. -/
def getModelsFetch (st : ModelState) (cType key : String) (now : Nat)
    (raw : Except String (List String)) (defaults : List String)
    (cached : Option CacheEntry) : List String × ModelState :=
  match raw with
  | Except.ok ms =>
    match st.registry cType with
    | some existingModels =>
      let models := dedupSort (existingModels ++ ms)
      (models,
       { cache := fun k => if k = key then some ⟨models, now⟩ else st.cache k,
         registry := fun t => if t = cType then some models else st.registry t })
    | none =>
      (ms,
       { cache := fun k => if k = key then some ⟨ms, now⟩ else st.cache k,
         registry := st.registry })
  | Except.error _ =>
    match cached with
    | some c => (c.models, st)
    | none => (defaults, st)

/-- Embedding of `ImageAdapter.getModels` (`base.ts`).  `raw` is the outcome
of the `_getModels(config)` call, `defaults` the adapter's static
`getDefaultModels()`, `now` the value of `Date.now()`.  Returns the list
handed to the caller and the updated state (the `ctx.schema.set` side
effect has no observable state here). -/
def getModels (st : ModelState) (cType : String) (index : Nat) (now : Nat)
    (raw : Except String (List String)) (defaults : List String) :
    List String × ModelState :=
  let key := cacheKey cType index
  let cached := st.cache key
  match cached with
  | some c =>
    if now - c.timestamp < CACHE_DURATION then
      (c.models, st)
    else
      getModelsFetch st cType key now raw defaults cached
  | none => getModelsFetch st cType key now raw defaults cached

/-- C3: if the cached entry is absent or stale and the raw `_getModels`
call fails, `getModels` returns the stale entry's model list unchanged when
one exists and the adapter's static default list otherwise, and leaves the
cache and registry untouched — the failure is never propagated. -/
theorem getModels_failure_fallback (st : ModelState) (cType : String)
    (index : Nat) (now : Nat) (e : String) (defaults : List String)
    (hstale : ∀ c, st.cache (cacheKey cType index) = some c →
      ¬ (now - c.timestamp < CACHE_DURATION)) :
    getModels st cType index now (Except.error e) defaults =
      ((match st.cache (cacheKey cType index) with
        | some c => c.models
        | none => defaults), st) := by
  cases hc : st.cache (cacheKey cType index) with
  | none => simp [getModels, getModelsFetch, hc]
  | some c =>
    have hs := hstale c hc
    simp [getModels, getModelsFetch, hc, hs]

/-- Witness for C3: a stale entry is served unchanged on refresh failure; a
missing entry falls back to the defaults. -/
theorem getModels_failure_fallback_witness :
    getModels ⟨fun k => if k = "doubao_0" then some ⟨["m1"], 0⟩ else none, fun _ => none⟩
        "doubao" 0 300000 (Except.error "网络错误") ["d1", "d2"] =
      (["m1"], ⟨fun k => if k = "doubao_0" then some ⟨["m1"], 0⟩ else none, fun _ => none⟩) ∧
    getModels ⟨fun _ => none, fun _ => none⟩ "doubao" 0 300000
        (Except.error "网络错误") ["d1", "d2"] =
      (["d1", "d2"], ⟨fun _ => none, fun _ => none⟩) := by
  constructor
  · have h := getModels_failure_fallback
      ⟨fun k => if k = "doubao_0" then some ⟨["m1"], 0⟩ else none, fun _ => none⟩
      "doubao" 0 300000 "网络错误" ["d1", "d2"]
      (fun c hc => by
        simp [cacheKey] at hc
        cases hc.2
        decide)
    rw [h]
    try rfl
  · have h := getModels_failure_fallback
      ⟨fun _ => none, fun _ => none⟩ "doubao" 0 300000 "网络错误" ["d1", "d2"]
      (fun c hc => by simp at hc)
    rw [h]
    try rfl

/-- The state at service construction: empty cache, empty registry. -/
def emptyModelState : ModelState := ⟨fun _ => none, fun _ => none⟩

/-- Concrete evaluation of the de-duplicated sorted union on the raw list
`["b", "a"]` with no prior registry entry. -/
theorem dedupSort_nil_ba : dedupSort ([] ++ ["b", "a"]) = ["a", "b"] := by
  simp [dedupSort, List.dedup, List.pwFilter, List.insertionSort, List.orderedInsert]
  decide

/-- Concrete evaluation of the de-duplicated sorted union of the registry
entry `["b"]` with the raw list `["b", "a"]`. -/
theorem dedupSort_b_ba : dedupSort (["b"] ++ ["b", "a"]) = ["a", "b"] := by
  simp [dedupSort, List.dedup, List.pwFilter, List.insertionSort, List.orderedInsert]
  decide

/-- Counterexample to C4: starting from the construction-time state (empty
registry, as `_models` is only ever written inside the `if (existingModels)`
guard of `getModels` itself), a successful refresh with the raw list
`["b", "a"]` does not write the registry at all, and returns and caches the
raw list unsorted — not the de-duplicated sorted union `["a", "b"]` the
claim requires. -/
theorem getModels_registry_merge_cex :
    (getModels emptyModelState "doubao" 0 0 (Except.ok ["b", "a"]) []).2.registry "doubao" = none ∧
    (getModels emptyModelState "doubao" 0 0 (Except.ok ["b", "a"]) []).1 = ["b", "a"] ∧
    ["b", "a"] ≠ dedupSort ([] ++ ["b", "a"]) := by
  refine ⟨rfl, rfl, ?_⟩
  rw [dedupSort_nil_ba]
  decide

/-- C4 (amended): on a successful refresh, when the per-type registry
already holds an entry the de-duplicated sorted union of that entry and the
new list replaces the registry entry, is stored in the cache with the
current timestamp, and is returned; when the registry has no entry for the
type, the raw new list is stored in the cache with the current timestamp
and returned, and the registry is left unwritten. -/
theorem getModels_success_spec (st : ModelState) (cType : String)
    (index : Nat) (now : Nat) (ms : List String) (defaults : List String)
    (hmiss : ∀ c, st.cache (cacheKey cType index) = some c →
      ¬ (now - c.timestamp < CACHE_DURATION)) :
    (∀ existing, st.registry cType = some existing →
      getModels st cType index now (Except.ok ms) defaults =
        (dedupSort (existing ++ ms),
         { cache := fun k => if k = cacheKey cType index then
             some ⟨dedupSort (existing ++ ms), now⟩ else st.cache k,
           registry := fun t => if t = cType then
             some (dedupSort (existing ++ ms)) else st.registry t }))
    ∧ (st.registry cType = none →
      getModels st cType index now (Except.ok ms) defaults =
        (ms,
         { cache := fun k => if k = cacheKey cType index then
             some ⟨ms, now⟩ else st.cache k,
           registry := st.registry })) := by
  constructor
  · intro existing hreg
    cases hc : st.cache (cacheKey cType index) with
    | none => simp [getModels, getModelsFetch, hc, hreg]
    | some c =>
      have hs := hmiss c hc
      simp [getModels, getModelsFetch, hc, hs, hreg]
  · intro hreg
    cases hc : st.cache (cacheKey cType index) with
    | none => simp [getModels, getModelsFetch, hc, hreg]
    | some c =>
      have hs := hmiss c hc
      simp [getModels, getModelsFetch, hc, hs, hreg]

/-- Witness for the amended C4: with a registry entry `["b"]` and raw list
`["b", "a"]`, the merged, de-duplicated, sorted list `["a", "b"]` is
returned; with an empty registry the raw list comes back as is. -/
theorem getModels_success_spec_witness :
    (getModels ⟨fun _ => none, fun t => if t = "doubao" then some ["b"] else none⟩
      "doubao" 0 0 (Except.ok ["b", "a"]) []).1 = ["a", "b"] ∧
    (getModels emptyModelState "doubao" 0 0 (Except.ok ["b", "a"]) []).1 = ["b", "a"] := by
  constructor
  · have h := (getModels_success_spec
      ⟨fun _ => none, fun t => if t = "doubao" then some ["b"] else none⟩
      "doubao" 0 0 ["b", "a"] [] (fun c hc => by simp at hc)).1 ["b"] (by simp)
    rw [h]
    exact dedupSort_b_ba
  · have h := (getModels_success_spec emptyModelState "doubao" 0 0 ["b", "a"] []
      (fun c hc => by simp [emptyModelState] at hc)).2 rfl
    rw [h]

/-- The fields of a Doubao `CVSync2AsyncGetResult` response's `data` object
inspected and returned by the poll loop (`doubao.ts`). -/
structure DoubaoTaskData where
  status : String
  binary_data_base64 : Option (List String)
  image_urls : Option (List String)
  deriving Repr, DecidableEq

/-- The polling loop of `DoubaoAdapter.pollTaskResult` (`doubao.ts`) from
`attempt`.  `query i` is the outcome of the `i`-th `queryTaskResult` call
(`Except.error` = it threw, carrying the thrown message).  Returns the
outcome of the loop together with the total number of `queryTaskResult`
calls made from attempt 0 to termination.  The `catch` inside the loop
wraps both a failing query and the terminal not-found/expired throw in
`查询任务结果失败: ...，请稍后重试` and re-raises, ending the loop. -/
def pollGo (query : Nat → Except String DoubaoTaskData) (attempt : Nat) :
    Except String DoubaoTaskData × Nat :=
  if _h : attempt < 30 then
    match query attempt with
    | Except.error msg =>
      (Except.error ("查询任务结果失败: " ++ msg ++ "，请稍后重试"), attempt + 1)
    | Except.ok data =>
      if data.status = "done" then
        (Except.ok data, attempt + 1)
      else if data.status = "not_found" ∨ data.status = "expired" then
        (Except.error ("查询任务结果失败: " ++
          (if data.status = "not_found" then "任务未找到，请检查任务ID"
           else "任务已过期，请重新提交任务") ++ "，请稍后重试"), attempt + 1)
      else
        pollGo query (attempt + 1)
  else
    (Except.error "任务处理超时，请稍后重试或联系技术支持", attempt)
  termination_by 30 - attempt
  decreasing_by omega

/-- Embedding of `DoubaoAdapter.pollTaskResult`, instrumented with the
number of result-endpoint calls. -/
def pollTaskResult (query : Nat → Except String DoubaoTaskData) :
    Except String DoubaoTaskData × Nat :=
  pollGo query 0

/-- `query i` returned a non-terminal status (neither `done` nor
`not_found` nor `expired`), so the loop keeps polling. -/
def nonTerminalAt (query : Nat → Except String DoubaoTaskData) (i : Nat) : Prop :=
  ∃ d, query i = Except.ok d ∧
    d.status ≠ "done" ∧ d.status ≠ "not_found" ∧ d.status ≠ "expired"

/-- A non-terminal poll iteration leaves the loop's value unchanged. -/
theorem pollGo_skip (query : Nat → Except String DoubaoTaskData) (k : Nat)
    (hk : k < 30) (hnt : nonTerminalAt query k) :
    pollGo query k = pollGo query (k + 1) := by
  obtain ⟨d, hq, h1, h2, h3⟩ := hnt
  rw [pollGo, dif_pos hk, hq]
  simp [h1, h2, h3]

/-- Skipping any number of consecutive non-terminal iterations. -/
theorem pollGo_skip_many (query : Nat → Except String DoubaoTaskData) :
    ∀ (d k : Nat), k + d ≤ 30 →
      (∀ i, k ≤ i → i < k + d → nonTerminalAt query i) →
      pollGo query k = pollGo query (k + d) := by
  intro d
  induction d with
  | zero => intro k _ _; rfl
  | succ n ih =>
    intro k hle hnt
    have hk : k < 30 := by omega
    rw [pollGo_skip query k hk (hnt k (by omega) (by omega))]
    have := ih (k + 1) (by omega) (fun i h1 h2 => hnt i (by omega) (by omega))
    rw [this]
    congr 1
    omega

/-- The poll-call count never exceeds 30. -/
theorem pollGo_count_le (query : Nat → Except String DoubaoTaskData) :
    ∀ (d k : Nat), 30 - k = d → k ≤ 30 → (pollGo query k).2 ≤ 30 := by
  intro d
  induction d with
  | zero =>
    intro k hd hk
    have : k = 30 := by omega
    subst this
    rw [pollGo, dif_neg (by omega)]
  | succ n ih =>
    intro k hd hk
    have hk30 : k < 30 := by omega
    rw [pollGo, dif_pos hk30]
    cases hq : query k with
    | error msg => simpa using by omega
    | ok data =>
      by_cases h1 : data.status = "done"
      · simp [h1]; omega
      · by_cases h2 : data.status = "not_found" ∨ data.status = "expired"
        · simp [h1, h2]; omega
        · simp [h1, h2]
          exact ih (k + 1) (by omega) (by omega)

/-- C5: (1) the poll loop makes at most 30 result calls; (2) the status
sequence in_queue, generating, done returns the `done` payload after
exactly 3 calls; (3) a not_found or expired status at poll `j` (preceded by
non-terminal polls) fails immediately after `j + 1` calls, with no further
polling; (4) 30 consecutive non-terminal polls yield the processing-timeout
error after exactly 30 calls. -/
theorem pollTaskResult_spec (query : Nat → Except String DoubaoTaskData) :
    ((pollTaskResult query).2 ≤ 30)
    ∧ (∀ d0 d1 d2, query 0 = Except.ok d0 → d0.status = "in_queue" →
        query 1 = Except.ok d1 → d1.status = "generating" →
        query 2 = Except.ok d2 → d2.status = "done" →
        pollTaskResult query = (Except.ok d2, 3))
    ∧ (∀ j d, j < 30 → (∀ i, i < j → nonTerminalAt query i) →
        query j = Except.ok d → (d.status = "not_found" ∨ d.status = "expired") →
        pollTaskResult query =
          (Except.error ("查询任务结果失败: " ++
            (if d.status = "not_found" then "任务未找到，请检查任务ID"
             else "任务已过期，请重新提交任务") ++ "，请稍后重试"), j + 1))
    ∧ ((∀ i, i < 30 → nonTerminalAt query i) →
        pollTaskResult query =
          (Except.error "任务处理超时，请稍后重试或联系技术支持", 30)) := by
  refine ⟨?_, ?_, ?_, ?_⟩
  · exact pollGo_count_le query 30 0 rfl (by omega)
  · intro d0 d1 d2 hq0 hs0 hq1 hs1 hq2 hs2
    have hskip : pollGo query 0 = pollGo query 2 := by
      have := pollGo_skip_many query 2 0 (by omega) (fun i h1 h2 => by
        interval_cases i
        · exact ⟨d0, hq0, by simp [hs0], by simp [hs0], by simp [hs0]⟩
        · exact ⟨d1, hq1, by simp [hs1], by simp [hs1], by simp [hs1]⟩)
      simpa using this
    rw [pollTaskResult, hskip, pollGo, dif_pos (by omega), hq2]
    simp [hs2]
  · intro j d hj hnt hq hterm
    have hskip := pollGo_skip_many query j 0 (by omega)
      (fun i h1 h2 => hnt i (by omega))
    rw [pollTaskResult, hskip]
    simp only [Nat.zero_add]
    rw [pollGo, dif_pos hj, hq]
    have hnd : d.status ≠ "done" := by
      rcases hterm with h | h <;> simp [h]
    simp [hnd, hterm]
  · intro hnt
    have hskip := pollGo_skip_many query 30 0 (by omega)
      (fun i h1 h2 => hnt i (by omega))
    rw [pollTaskResult, hskip]
    simp only [Nat.zero_add]
    rw [pollGo, dif_neg (by omega)]

/-- Witness for C5 at concrete query sequences: in_queue, generating, done
succeeds after 3 calls; an expired status at the second poll fails after 2
calls. -/
theorem pollTaskResult_spec_witness :
    pollTaskResult (fun i =>
        if i = 0 then Except.ok ⟨"in_queue", none, none⟩
        else if i = 1 then Except.ok ⟨"generating", none, none⟩
        else Except.ok ⟨"done", none, some ["u"]⟩) =
      (Except.ok ⟨"done", none, some ["u"]⟩, 3) ∧
    pollTaskResult (fun i =>
        if i = 0 then Except.ok ⟨"in_queue", none, none⟩
        else Except.ok ⟨"expired", none, none⟩) =
      (Except.error "查询任务结果失败: 任务已过期，请重新提交任务，请稍后重试", 2) := by
  constructor
  · exact (pollTaskResult_spec (fun i =>
        if i = 0 then Except.ok ⟨"in_queue", none, none⟩
        else if i = 1 then Except.ok ⟨"generating", none, none⟩
        else Except.ok ⟨"done", none, some ["u"]⟩)).2.1
      ⟨"in_queue", none, none⟩ ⟨"generating", none, none⟩ ⟨"done", none, some ["u"]⟩
      rfl rfl rfl rfl rfl rfl
  · have h := (pollTaskResult_spec (fun i =>
        if i = 0 then Except.ok ⟨"in_queue", none, none⟩
        else Except.ok ⟨"expired", none, none⟩)).2.2.1
      1 ⟨"expired", none, none⟩ (by omega)
      (fun i hi => by
        interval_cases i
        exact ⟨⟨"in_queue", none, none⟩, rfl, by decide, by decide, by decide⟩)
      rfl (Or.inr rfl)
    rw [h]
    rfl

/-- JS truthiness of an optional string field: `undefined` and the empty
string are falsy. -/
def jsTruthyStr : Option String → Bool
  | none => false
  | some s => !s.isEmpty

/-- A renderable message element (`h.image` / `h.text` in `base.ts`). -/
inductive MsgElement
  | image (src : String)
  | text (s : String)
  deriving Repr, DecidableEq

/-- One `response.data` item of `ImageGenerationResponse` (`types.ts`). -/
structure ImageDataItem where
  url : Option String
  b64_json : Option String
  deriving Repr, DecidableEq

/-- The `usage` object of `ImageGenerationResponse`. -/
structure ImageUsage where
  input_tokens : Nat
  output_tokens : Nat
  deriving Repr, DecidableEq

/-- The fields of `ImageGenerationResponse` read by `createImageElements`. -/
structure ImageGenerationResponse where
  data : List ImageDataItem
  usage : Option ImageUsage
  deriving Repr, DecidableEq

/-- The data-URL munging applied to a `b64_json` payload in
`createImageElements` (`base.ts`): a payload already starting with
`data:image` keeps only what follows the first comma (JS `split(',')[1]`,
modelled as the empty string when absent), any other payload is prefixed
with `data:image/png;base64,`. -/
def convB64 (b : String) : String :=
  if b.startsWith "data:image" then (b.splitOn ",").getD 1 ""
  else "data:image/png;base64," ++ b

/-- One iteration of the `for (const item of response.data)` loop of
`createImageElements`: `if (item.url) ... else if (item.b64_json) ...`. -/
def itemElements (item : ImageDataItem) : List MsgElement :=
  if jsTruthyStr item.url then
    [MsgElement.image (item.url.getD "")]
  else if jsTruthyStr item.b64_json then
    [MsgElement.image (convB64 (item.b64_json.getD ""))]
  else
    []

/-- Embedding of `ImageAdapter.createImageElements` (`base.ts`);
`showUsage` is `ctx.drawluna.config.showUsage`. -/
def createImageElements (showUsage : Bool) (resp : ImageGenerationResponse) :
    List MsgElement :=
  resp.data.flatMap itemElements ++
    (match resp.usage with
     | some u =>
       if showUsage then
         [MsgElement.text "\n\n\n",
          MsgElement.text ("输入 token: " ++ toString u.input_tokens ++ "\n"),
          MsgElement.text ("输出 token: " ++ toString u.output_tokens)]
       else []
     | none => [])

/-- A data item contributes one element exactly when its `url` or
`b64_json` is (JS-)truthy. -/
theorem itemElements_length (item : ImageDataItem) :
    (itemElements item).length =
      if jsTruthyStr item.url || jsTruthyStr item.b64_json then 1 else 0 := by
  cases hu : jsTruthyStr item.url <;> cases hb : jsTruthyStr item.b64_json <;>
    simp [itemElements, hu, hb]

/-- The data loop produces one element per item with a truthy `url` or
`b64_json`. -/
theorem flatMap_itemElements_length : ∀ (l : List ImageDataItem),
    (l.flatMap itemElements).length =
      l.countP (fun item => jsTruthyStr item.url || jsTruthyStr item.b64_json) := by
  intro l
  induction l with
  | nil => rfl
  | cons a t ih =>
    cases hu : jsTruthyStr a.url <;> cases hb : jsTruthyStr a.b64_json <;>
      simp [List.countP_cons, itemElements, hu, hb, ih]

/-- C10: each data item contributes at most one image element; an item with
a (truthy) `url` contributes the element built from the url even when
`b64_json` is also present; an item with neither contributes nothing; and
when no usage footer is appended (no usage in the response, or usage output
disabled) the element count equals the number of data items with a `url` or
a `b64_json`. -/
theorem createImageElements_spec (showUsage : Bool)
    (resp : ImageGenerationResponse) :
    (∀ item, (itemElements item).length ≤ 1)
    ∧ (∀ item, jsTruthyStr item.url = true →
        itemElements item = [MsgElement.image (item.url.getD "")])
    ∧ (∀ item, jsTruthyStr item.url = false → jsTruthyStr item.b64_json = false →
        itemElements item = [])
    ∧ ((resp.usage = none ∨ showUsage = false) →
        (createImageElements showUsage resp).length =
          resp.data.countP
            (fun item => jsTruthyStr item.url || jsTruthyStr item.b64_json)) := by
  refine ⟨?_, ?_, ?_, ?_⟩
  · intro item
    rw [itemElements_length]
    split <;> omega
  · intro item hu
    simp [itemElements, hu]
  · intro item hu hb
    simp [itemElements, hu, hb]
  · intro hfoot
    have hnil : (match resp.usage with
        | some u =>
          if showUsage then
            [MsgElement.text "\n\n\n",
             MsgElement.text ("输入 token: " ++ toString u.input_tokens ++ "\n"),
             MsgElement.text ("输出 token: " ++ toString u.output_tokens)]
          else []
        | none => ([] : List MsgElement)) = [] := by
      rcases hfoot with h | h
      · rw [h]
      · cases resp.usage <;> simp [h]
    rw [createImageElements, hnil, List.append_nil]
    exact flatMap_itemElements_length resp.data

/-- Witness for C10: three concrete data items (url plus ignored base64,
base64 only, empty) yield an element count equal to the number of items
carrying a payload. -/
theorem createImageElements_spec_witness :
    (createImageElements true
        ⟨[⟨some "u", some "b"⟩, ⟨none, some "b"⟩, ⟨none, none⟩], none⟩).length =
      ([⟨some "u", some "b"⟩, ⟨none, some "b"⟩, ⟨none, none⟩] : List ImageDataItem).countP
        (fun item => jsTruthyStr item.url || jsTruthyStr item.b64_json) :=
  (createImageElements_spec true
    ⟨[⟨some "u", some "b"⟩, ⟨none, some "b"⟩, ⟨none, none⟩], none⟩).2.2.2 (Or.inl rfl)

/-- Abstract interface to the `crypto` primitives used by the Doubao
signer (`createHmac('sha256', ·)` over a string or buffer key, the hex
rendering of a digest, `createHash('sha256')` hex digesting) and to
`uriEscape`.  Each primitive is a pure function, as the Node APIs are for
fixed inputs; the signer is then a pure function of its parameters. -/
structure CryptoPrims (Bytes : Type) where
  hmacStr : String → String → Bytes
  hmacBytes : Bytes → String → Bytes
  toHex : Bytes → String
  hashHex : String → String
  uriEscape : String → String

/-- The parameters of `DoubaoAdapter.sign` (`doubao.ts`), as assembled by
`buildHeaders`.  Headers and query are association lists of string pairs. -/
structure SignParams where
  headers : List (String × String)
  query : List (String × String)
  method : String
  pathName : String
  accessKeyId : String
  secretAccessKey : String
  region : String
  serviceName : String
  bodySha : String

/-- JS object property read `assoc[k]` on an association list (the headers
and query objects of the signer), defaulting to the empty string. -/
def lookupAssoc (assoc : List (String × String)) (k : String) : String :=
  (((assoc.find? (fun kv => kv.fst == k)).map Prod.snd).getD "")

/-- `trimHeaderValue` from `getSignHeaders`:
`header.toString().trim().replace(/\s+/g, ' ')` — collapse whitespace runs
to single spaces and drop leading/trailing whitespace. -/
def trimHeaderValue (s : String) : String :=
  String.intercalate " " ((s.split (fun c => c.isWhitespace)).filter (fun t => !t.isEmpty))

/-- `HEADER_KEYS_TO_IGNORE` from `getSignHeaders` (`doubao.ts`). -/
def HEADER_KEYS_TO_IGNORE : List String :=
  ["authorization", "content-type", "content-length", "user-agent",
   "presigned-expires", "expect"]

/-- Embedding of `getSignHeaders(originHeaders, [])` (`doubao.ts`) — the
signer always passes an empty `needSignHeaders`, so the need-sign set is
exactly x-date and host.  Returns the `;`-joined sorted lowercased
signed-header-name list and the canonical header block. -/
def getSignHeaders (originHeaders : List (String × String)) : String × String :=
  let keys := originHeaders.map Prod.fst
  let needSignSet := ["x-date", "host"]
  let kept := (keys.filter (fun k => needSignSet.contains k.toLower)).filter
    (fun k => !(HEADER_KEYS_TO_IGNORE.contains k.toLower))
  let signedHeaderKeys :=
    String.intercalate ";" ((kept.map (fun k => k.toLower)).insertionSort (fun a b => a ≤ b))
  let canonicalHeaders :=
    String.intercalate "\n"
      ((kept.insertionSort (fun a b => a.toLower < b.toLower)).map
        (fun k => k.toLower ++ ":" ++ trimHeaderValue (lookupAssoc originHeaders k)))
  (signedHeaderKeys, canonicalHeaders)

/-- Embedding of `queryParamsToString` (`doubao.ts`) for string-valued
query objects: sort the keys, escape key and value, drop entries whose
escaped key is empty, and join with `&`. -/
def queryParamsToString (esc : String → String) (params : List (String × String)) : String :=
  String.intercalate "&"
    (((((params.map Prod.fst).insertionSort (fun a b => a ≤ b)).filterMap
      (fun key =>
        let escapedKey := esc key
        if escapedKey.isEmpty then none
        else some (escapedKey ++ "=" ++ esc (lookupAssoc params key)))).filter
      (fun v => !v.isEmpty)))

/-- The `canonicalRequest` string built inside `sign` (`doubao.ts`):
upper-cased method, path, sorted-and-escaped query string, canonical header
block followed by a blank line, signed-header names, and the body SHA-256
hex (of the empty string when absent), joined by newlines. -/
def canonicalRequestOf {Bytes : Type} (cp : CryptoPrims Bytes) (p : SignParams) : String :=
  String.intercalate "\n"
    [p.method.toUpper, p.pathName, queryParamsToString cp.uriEscape p.query,
     (getSignHeaders p.headers).2 ++ "\n", (getSignHeaders p.headers).1,
     if p.bodySha.isEmpty then cp.hashHex "" else p.bodySha]

/-- Embedding of `DoubaoAdapter.sign` (`doubao.ts`).  The timestamp is the
`X-Date` header; `date` is its first 8 characters. -/
def sign {Bytes : Type} (cp : CryptoPrims Bytes) (p : SignParams) : String :=
  let datetime := lookupAssoc p.headers "X-Date"
  let date := datetime.take 8
  let signedHeaders := (getSignHeaders p.headers).1
  let canonicalRequest := canonicalRequestOf cp p
  let credentialScope := String.intercalate "/" [date, p.region, p.serviceName, "request"]
  let stringToSign := String.intercalate "\n"
    ["HMAC-SHA256", datetime, credentialScope, cp.hashHex canonicalRequest]
  let kDate := cp.hmacStr p.secretAccessKey date
  let kRegion := cp.hmacBytes kDate p.region
  let kService := cp.hmacBytes kRegion p.serviceName
  let kSigning := cp.hmacBytes kService "request"
  let signature := cp.toHex (cp.hmacBytes kSigning stringToSign)
  String.intercalate " "
    ["HMAC-SHA256",
     "Credential=" ++ p.accessKeyId ++ "/" ++ credentialScope ++ ",",
     "SignedHeaders=" ++ signedHeaders ++ ",",
     "Signature=" ++ signature]

/-- The reference signature in the words of the specification: derive the
signing key by chained HMAC-SHA256 — kDate = HMAC(secretKey, date),
kRegion = HMAC(kDate, region), kService = HMAC(kRegion, service),
kSigning = HMAC(kService, "request") — and produce
hex(HMAC(kSigning, stringToSign)) where stringToSign is "HMAC-SHA256",
the timestamp, date/region/service/"request", and SHA256(canonicalRequest),
newline-separated. -/
def referenceSignature {Bytes : Type} (cp : CryptoPrims Bytes)
    (secretKey timestamp region service canonicalRequest : String) : String :=
  let date := timestamp.take 8
  let credentialScope := date ++ "/" ++ region ++ "/" ++ service ++ "/" ++ "request"
  let stringToSign :=
    "HMAC-SHA256" ++ "\n" ++ timestamp ++ "\n" ++ credentialScope ++ "\n" ++
      cp.hashHex canonicalRequest
  let kDate := cp.hmacStr secretKey date
  let kRegion := cp.hmacBytes kDate region
  let kService := cp.hmacBytes kRegion service
  let kSigning := cp.hmacBytes kService "request"
  cp.toHex (cp.hmacBytes kSigning stringToSign)

/-- C8: for fixed signing inputs the Doubao signer is deterministic (equal
inputs give byte-identical Authorization strings — `sign` is a pure
function of its parameters), and the signature it embeds equals the
reference chained-HMAC definition over the same timestamp, scope, and
canonical request. -/
theorem sign_deterministic_reference {Bytes : Type} (cp : CryptoPrims Bytes)
    (p : SignParams) :
    sign cp p = sign cp p ∧
    sign cp p =
      "HMAC-SHA256" ++ " " ++
      "Credential=" ++ p.accessKeyId ++ "/" ++
        (lookupAssoc p.headers "X-Date").take 8 ++ "/" ++ p.region ++ "/" ++
        p.serviceName ++ "/" ++ "request" ++ "," ++ " " ++
      "SignedHeaders=" ++ (getSignHeaders p.headers).1 ++ "," ++ " " ++
      "Signature=" ++
        referenceSignature cp p.secretAccessKey (lookupAssoc p.headers "X-Date")
          p.region p.serviceName (canonicalRequestOf cp p) := by
  refine ⟨rfl, ?_⟩
  simp [sign, referenceSignature, String.intercalate, String.intercalate.go,
    ← String.append_assoc]

end DrawLuna
